import Mathlib

/-!
A shallow embedding, in Lean 4, of the turn-and-result engine and the
invitation/membership state machine of the pm-store repository (package v1,
store.go and its sibling variants).  The hierarchical remote store is made
explicit: every path-addressed subtree that the operations read or write is
modelled as an association list from key strings to values, and every
fetch-mutate-persist sequence becomes a pure function from the old state to
the new state.  Millisecond-epoch strings and duration strings, which the Go
code converts with strconv.Atoi and back with strconv.Itoa at every use, are
modelled by their integer values.  Store-generated UUIDs and wall-clock
timestamps enter the model as explicit parameters.
-/

set_option autoImplicit false

namespace PMStore

/-- Association-list maps model Firebase subtrees keyed by path segment
(for example members, steps, gamers, or per-gamer result lists). -/
def alookup {α : Type} : List (String × α) → String → Option α
  | [], _ => none
  | e :: rest, k => if e.1 = k then some e.2 else alookup rest k

/-- Writing the value at one key of a subtree: replace the first entry with
that key, or append a fresh entry.  This is the semantics of a Set call on
the path of the key, and of a Go map assignment. -/
def aset {α : Type} : List (String × α) → String → α → List (String × α)
  | [], k, v => [(k, v)]
  | e :: rest, k, v => if e.1 = k then (k, v) :: rest else e :: aset rest k v

/-- Deleting one key of a subtree (Go map delete). -/
def aremove {α : Type} : List (String × α) → String → List (String × α)
  | [], _ => []
  | e :: rest, k => if e.1 = k then rest else e :: aremove rest k

/-- The vote payload (models.Vote): the fields the engine reads. -/
structure Vote where
  gameBin : String
  source : String
  stepBin : String
deriving DecidableEq

/-- One immutable recorded vote (models.Result). -/
structure Result where
  bin : String
  stepBin : String
  gameBin : String
  gamerId : String
  timeStamp : String
  vote : Vote
deriving DecidableEq

/-- One game step (models.Step).  duration is the integer value of the
Duration decimal string; startTime and endTime are the integer values of
the millisecond-epoch strings the scheduler writes with strconv.Itoa.
Fields the modelled operations never read (command, characters, sub_steps,
allowed) are omitted. -/
structure Step where
  bin : String
  stepType : String
  duration : Int
  stepIndex : Int
  startTime : Int
  endTime : Int
  requiresVote : Bool
  voteType : String
  nextStep : String
  result : List (String × List Result)
deriving DecidableEq

/-- A player's in-game identity (models.Gamer). -/
structure Gamer where
  bin : String
  gameId : String
  characterId : String
  isAlive : Bool
deriving DecidableEq

/-- models.Invitation, all fields. -/
structure Invitation where
  bin : String
  gameGroup : String
  creatorId : String
  status : String
  invitation : String
  message : String
  time : String
  gameId : String
  accepted : Bool
  declined : Bool
deriving DecidableEq

/-- models.Player.  The invitations list and group-id list are the parts the
invitation state machine mutates. -/
structure Player where
  bin : String
  userName : String
  status : String
  photo : String
  privacy : String
  invitations : List Invitation
  groupIds : List String
deriving DecidableEq

/-- A game group node (models.Group) together with its store-level members
subtree, which Set calls address as members slash key.  The creator
reference is never read by the modelled operations and is omitted. -/
structure Group where
  bin : String
  groupName : String
  capacity : Int
  status : String
  members : List (String × Player)
deriving DecidableEq

/-- A game node (models.Game) restricted to the fields the modelled
operations read or write. -/
structure Game where
  bin : String
  currentStep : String
  status : String
  invited : List String
  gamers : List (String × Gamer)
  steps : List (String × Step)
  stepResults : List (String × List Result)
deriving DecidableEq

/-- The body of the scheduling loop in AddAllStepsToDb (store.go).  The Go
loop ranges over the original slice with index i, threading the variable
lastEndTime.  Faithfully to the source, lastEndTime is assigned only in the
branch for i equal to 0, so for every later step it still holds step 0's end
time. -/
def addStepsLoop (startTime : Int) : List Step → Nat → Int → List Step
  | [], _, _ => []
  | s :: rest, i, lastEndTime =>
    if i = 0 then
      let eTime := startTime + s.duration * 1000 + 500
      { s with stepIndex := (i : Int), startTime := startTime, endTime := eTime }
        :: addStepsLoop startTime rest (i + 1) eTime
    else
      let sTime := lastEndTime + 500
      let eTime := sTime + s.duration * 1000 + 500
      { s with stepIndex := (i : Int), startTime := sTime, endTime := eTime }
        :: addStepsLoop startTime rest (i + 1) lastEndTime

/-- AddAllStepsToDb (store.go, function scope 1285 to 1336).  The loop
schedules the N input steps in place and also appends each one to the very
slice it is ranging over, so the returned slice holds the N scheduled steps
followed by those same N steps once more.  Each scheduled step is persisted
individually; the model assumes those writes succeed. -/
def AddAllStepsToDb (steps : List Step) (startTime : Int) : List Step :=
  let sched := addStepsLoop startTime steps 0 0
  sched ++ sched

/-- The transient result list the store holds for one gamer under the game's
current step, empty when the step or the list is absent. -/
def storedResults (g : Game) (gamerId : String) : List Result :=
  match alookup g.steps g.currentStep with
  | none => []
  | some st => (alookup st.result gamerId).getD []

/-- buildStepResult (store.go 1429 to 1456; the variant in part 000 only
comments out the redundant empty-list initialisation, which the default
value of the lookup already models).  The fresh UUID and the wall-clock
timestamp are explicit parameters.  Returns the mutated game together with
the list the caller persists at the path steps, current step, result, gamer
id; none models the nil-pointer crash the source would hit when the current
step is not in the game's step map. -/
def buildStepResult (game : Game) (gamerId : String) (action : Vote)
    (freshBin stamp : String) : Option (Game × List Result) :=
  match alookup game.steps game.currentStep with
  | none => none
  | some step =>
    let entry : Result :=
      { bin := freshBin, stepBin := action.stepBin, gameBin := game.bin,
        gamerId := gamerId, timeStamp := stamp, vote := action }
    let updated := (alookup step.result gamerId).getD [] ++ [entry]
    let step' := { step with result := aset step.result gamerId updated }
    some ({ game with steps := aset game.steps game.currentStep step' }, updated)

/-- One iteration of the archival collection in ArchiveStepResults
(store.go): append the result to the game-level list keyed by the result's
own gamer id, creating the list when absent. -/
def archiveResultEntry (acc : List (String × List Result)) (res : Result) :
    List (String × List Result) :=
  aset acc res.gamerId ((alookup acc res.gamerId).getD [] ++ [res])

/-- Collect every result held in one step's transient result map. -/
def archiveStepInto (acc : List (String × List Result)) (step : Step) :
    List (String × List Result) :=
  step.result.foldl (fun a pair => pair.2.foldl archiveResultEntry a) acc

/-- Clearing one step's transient result map (step.Result becomes nil). -/
def clearStep (p : String × Step) : String × Step :=
  (p.1, { p.2 with result := [] })

/-- ArchiveStepResults (store.go 1458 to 1499).  Collect every transient
result into the game-level stepResults map keyed by each result's gamer id,
then clear every step's transient map; the combined update persists exactly
these two mutated subtrees, so the returned game is the persisted state. -/
def ArchiveStepResults (game : Game) : Game :=
  let sr := game.steps.foldl (fun a p => archiveStepInto a p.2) game.stepResults
  { game with stepResults := sr, steps := game.steps.map clearStep }

/-- ArchiveStepResults as written in part 000 (lines 1300 to 1341).  Its
collection loop reads the game-level list into a fresh local variable r and
appends to r, but never writes r back into game.StepResults, so the
collection has no effect; only the clearing loop and the (here conflated)
initialisation of a nil stepResults map remain. -/
def ArchiveStepResults_v0 (game : Game) : Game :=
  { game with steps := game.steps.map clearStep }

/-- GetStepByBin (store.go 683 to 693): fetch the step stored under the
steps subtree; a missing node leaves the zero value, whose empty bin makes
the function return no step (and no error). -/
def GetStepByBin (stepsDb : List (String × Step)) (bin : String) : Option Step :=
  match alookup stepsDb bin with
  | none => none
  | some c => if c.bin = "" then none else some c

/-- SetNextStep (store.go 812 to 841).  Faithfully to the source it looks up
the step named by the game's own currentStep field and assigns that step's
bin back to currentStep; the nextStep pointer of the fetched step is never
read.  none models the paths on which no update reaches the store (a fetch
error leaves the game unchanged; a missing step makes the source dereference
a nil pointer). -/
def SetNextStep (game : Game) (stepsDb : List (String × Step)) : Option Game :=
  match GetStepByBin stepsDb game.currentStep with
  | none => none
  | some current => some { game with currentStep := current.bin }

/-- The scan of the player's invitation list shared by both group-invitation
transitions: first entry whose bin matches the invitation id. -/
def findInvitation : List Invitation → String → Option Invitation
  | [], _ => none
  | inv :: rest, invId => if inv.bin = invId then some inv else findInvitation rest invId

/-- The invitation-list pass of AcceptGroupInvitation (store.go 1146 to
1169): at the first entry whose bin matches, fail if it is already accepted
or already declined, otherwise mark it accepted and stop; entries after the
match, and the whole list when nothing matches, stay as they are. -/
def acceptInvLoop : List Invitation → String → Except String (List Invitation)
  | [], _ => .ok []
  | inv :: rest, invId =>
    if inv.bin = invId then
      if inv.accepted then .error "invitation already accepted"
      else if inv.declined then .error "invitation already declined"
      else .ok ({ inv with accepted := true, status := "accepted" } :: rest)
    else
      match acceptInvLoop rest invId with
      | .ok rest' => .ok (inv :: rest')
      | .error e => .error e

/-- AddPlayerToGroupMembers (store.go 240 to 248): a Set on the members
subtree of the group at the given key. -/
def AddPlayerToGroupMembers (members : List (String × Player)) (bin : String)
    (m : Player) : List (String × Player) :=
  aset members bin m

/-- AcceptGroupInvitation (store.go 1146 to 1205).  The result carries the
explicit success or failure together with the player and group states as the
store holds them afterwards.  A terminal invitation fails before anything is
mutated.  Otherwise the invitation is marked accepted and persisted, the
group id is appended to the player's group ids only when absent, and then,
faithfully to the source slip, the player is written into the fetched
group's members subtree under the key g.bin, the group's own bin. -/
def AcceptGroupInvitation (p : Player) (invitationId groupId : String)
    (groups : List (String × Group)) :
    Except String Unit × Player × List (String × Group) :=
  match acceptInvLoop p.invitations invitationId with
  | .error e => (.error e, p, groups)
  | .ok invs =>
    let p1 : Player := { p with invitations := invs }
    let p2 : Player :=
      if groupId ∈ p1.groupIds then p1 else { p1 with groupIds := p1.groupIds ++ [groupId] }
    match alookup groups groupId with
    | none => (.error "group not found", p2, groups)
    | some g =>
      (.ok (), p2,
        aset groups groupId { g with members := AddPlayerToGroupMembers g.members g.bin p2 })

/-- The invitation-list pass of DeclineGameGroupInvitation: the first entry
whose bin matches is marked declined, unconditionally. -/
def declineInvLoop : List Invitation → String → List Invitation
  | [], _ => []
  | inv :: rest, invId =>
    if inv.bin = invId then
      { inv with declined := true, accepted := false, status := "declined" } :: rest
    else inv :: declineInvLoop rest invId

/-- The member-removal pass of DeclineGameGroupInvitation in the keyed shape
of part 000 (lines 1161 to 1167): when some member value carries the
player's bin, delete the entry keyed by that bin.  The store.go variant
differs only in holding members as a plain slice. -/
def removeMemberOnDecline (members : List (String × Player)) (pBin : String) :
    List (String × Player) :=
  if members.any (fun e => e.2.bin == pBin) then aremove members pBin else members

/-- DeclineGameGroupInvitation (store.go 1207 to 1253, part 000 1132 to
1178).  The source returns nothing: there is no failure signal and no
terminal-state check; the matching invitation is flipped to declined and the
full invitation list is persisted, then the player is removed from the
group's members. -/
def DeclineGameGroupInvitation (p : Player) (invitationId groupId : String)
    (groups : List (String × Group)) : Player × List (String × Group) :=
  let p' : Player := { p with invitations := declineInvLoop p.invitations invitationId }
  match alookup groups groupId with
  | none => (p', groups)
  | some g =>
    (p', aset groups groupId { g with members := removeMemberOnDecline g.members p.bin })

/-- The single invitation record AcceptGameInvitation persists as the whole
value of the player's invitations field. -/
def acceptedGameInvitation (invitation : Invitation) : Invitation :=
  { bin := invitation.bin, gameGroup := invitation.gameGroup,
    creatorId := invitation.creatorId, status := "received", invitation := "game",
    message := "I\x27m down!", time := "", gameId := invitation.gameId,
    accepted := true, declined := false }

/-- The single invitation record DeclineGameInvitation persists as the whole
value of the player's invitations field. -/
def declinedGameInvitation (invitation : Invitation) : Invitation :=
  { bin := invitation.bin, gameGroup := invitation.gameGroup,
    creatorId := invitation.creatorId, status := "received", invitation := "game",
    message := "I\x27m not down!", time := "", gameId := invitation.gameId,
    accepted := false, declined := true }

/-- Removing the first occurrence of a value from a slice, as the Go loops
over g.Invited do with append of the two halves. -/
def removeFirstString : List String → String → List String
  | [], _ => []
  | x :: rest, v => if x = v then rest else x :: removeFirstString rest v

/-- AcceptGameInvitation (store.go 1044 to 1093; part 000's variant performs
only the player update).  The store.go variant first inserts a fresh Gamer
for the player into the game's gamer map (persisted, by a field-name slip,
under the game's players key) and then overwrites the player's invitations
field with a freshly built single-element list. -/
def AcceptGameInvitation (game : Game) (playerId : String) (invitation : Invitation)
    (p : Player) (freshGamerBin : String) : Game × Player :=
  let gamer : Gamer :=
    { bin := freshGamerBin, gameId := invitation.gameId, characterId := "3",
      isAlive := true }
  let game' := { game with gamers := aset game.gamers playerId gamer }
  (game', { p with invitations := [acceptedGameInvitation invitation] })

/-- DeclineGameInvitation (store.go 1095 to 1144): remove the player's bin
from the game's invited slice by first value match, then overwrite the
player's invitations field with a freshly built single-element list. -/
def DeclineGameInvitation (game : Game) (playerId : String) (invitation : Invitation)
    (p : Player) : Game × Player :=
  let game' := { game with invited := removeFirstString game.invited playerId }
  (game', { p with invitations := [declinedGameInvitation invitation] })

/-- A group-invitation transition request, for reasoning about arbitrary
sequences of accepts and declines. -/
inductive GroupInvOp where
  | accept (invitationId groupId : String)
  | decline (invitationId groupId : String)
deriving DecidableEq

/-- Running one transition against the player and group state; a failed
accept leaves the state exactly as the source leaves the store. -/
def applyGroupInvOp (st : Player × List (String × Group)) (op : GroupInvOp) :
    Player × List (String × Group) :=
  match op with
  | .accept invId gid => (AcceptGroupInvitation st.1 invId gid st.2).2
  | .decline invId gid => DeclineGameGroupInvitation st.1 invId gid st.2

/-- The mutual-exclusion invariant on one invitation. -/
abbrev InvitationOK (inv : Invitation) : Prop :=
  ¬(inv.accepted = true ∧ inv.declined = true)

/-- Every invitation the player holds satisfies mutual exclusion. -/
abbrev PlayerOK (p : Player) : Prop :=
  ∀ inv ∈ p.invitations, InvitationOK inv

deriving instance DecidableEq for Except

/-- The archived history length the store holds for one gamer. -/
def keyLen (m : List (String × List Result)) (k : String) : Nat :=
  ((alookup m k).getD []).length

/-- A step carrying only the fields scheduling and stepping read. -/
def mkPlainStep (b : String) (d : Int) (nxt : String) : Step :=
  { bin := b, stepType := "night", duration := d, stepIndex := 0, startTime := 0,
    endTime := 0, requiresVote := true, voteType := "majority", nextStep := nxt,
    result := [] }

/-- A group invitation with the given bin and flags. -/
def mkInvitation (b : String) (acc dec : Bool) (st : String) : Invitation :=
  { bin := b, gameGroup := "gg", creatorId := "c1", status := st, invitation := "group",
    message := "", time := "", gameId := "gm", accepted := acc, declined := dec }

/-- A player holding the given invitations and no group ids. -/
def mkPlayer (b : String) (invs : List Invitation) : Player :=
  { bin := b, userName := b, status := "available", photo := "", privacy := "public",
    invitations := invs, groupIds := [] }

/-- A group node with the given members subtree. -/
def mkGroup (b : String) (ms : List (String × Player)) : Group :=
  { bin := b, groupName := "grp", capacity := 8, status := "waiting", members := ms }

/-- Three-step schedule request: durations 30, 45 and 10 seconds. -/
def c1Steps : List Step :=
  [mkPlainStep "a" 30 "b", mkPlainStep "b" 45 "c", mkPlainStep "c" 10 ""]

/-- The scheduler's output on c1Steps with game start time 1000. -/
def c1Out : List Step :=
  AddAllStepsToDb c1Steps 1000

def c2Vote : Vote :=
  { gameBin := "game1", source := "g1", stepBin := "st1" }

def c2Prev : Result :=
  { bin := "r0", stepBin := "st1", gameBin := "game1", gamerId := "g1",
    timeStamp := "5", vote := c2Vote }

def c2Step : Step :=
  { mkPlainStep "st1" 30 "st2" with result := [("g1", [c2Prev])] }

def c2Game : Game :=
  { bin := "game1", currentStep := "st1", status := "started", invited := [],
    gamers := [], steps := [("st1", c2Step)], stepResults := [] }

def c3Res : Result :=
  { bin := "r1", stepBin := "s1", gameBin := "game3", gamerId := "g1",
    timeStamp := "7", vote := { gameBin := "game3", source := "g1", stepBin := "s1" } }

def c3Game : Game :=
  { bin := "game3", currentStep := "s1", status := "started", invited := [],
    gamers := [],
    steps := [("s1", { mkPlainStep "s1" 30 "" with result := [("g1", [c3Res])] })],
    stepResults := [] }

def c5Inv : Invitation := mkInvitation "i1" true false "accepted"

def c5Player : Player := mkPlayer "pA" [c5Inv]

def c5Groups : List (String × Group) := [("g1", mkGroup "g1" [])]

def c6InvA : Invitation := mkInvitation "iA" true false "accepted"

def c6InvD : Invitation := mkInvitation "iD" false true "declined"

def c6Player : Player := mkPlayer "pB" [c6InvA, c6InvD]

def c7Ops : List GroupInvOp :=
  [.accept "i1" "g1", .decline "i1" "g1", .decline "i1" "g1", .accept "i1" "g1"]

def c7Player : Player := mkPlayer "pC" [mkInvitation "i1" false false "received"]

def c7Groups : List (String × Group) := [("g1", mkGroup "g1" [])]

def c8Groups : List (String × Group) := [("G", mkGroup "G" [])]

def c8P2 : Player := mkPlayer "p2" [mkInvitation "i2" false false "received"]

def c8P3 : Player := mkPlayer "p3" [mkInvitation "i3" false false "received"]

/-- First accept: p2 joins group G. -/
def c8St1 : Except String Unit × Player × List (String × Group) :=
  AcceptGroupInvitation c8P2 "i2" "G" c8Groups

/-- Second accept: p3 joins group G in the state left by the first. -/
def c8St2 : Except String Unit × Player × List (String × Group) :=
  AcceptGroupInvitation c8P3 "i3" "G" c8St1.2.2

def c9Step : Step := mkPlainStep "s1" 30 "s2"

def c9StepsDb : List (String × Step) := [("s1", c9Step)]

def c9Game : Game :=
  { bin := "gm9", currentStep := "s1", status := "started", invited := [],
    gamers := [], steps := [], stepResults := [] }

def c10Inv : Invitation := mkInvitation "i9" false false "created"

def c10Old : Invitation := mkInvitation "iOld" false false "received"

def c10Player : Player := mkPlayer "p9" [c10Old]

def c10Game : Game :=
  { bin := "gmA", currentStep := "s", status := "waiting", invited := ["p9"],
    gamers := [], steps := [], stepResults := [] }

theorem alookup_aset_self {α : Type} (m : List (String × α)) (k : String) (v : α) :
    alookup (aset m k v) k = some v := by
  induction m with
  | nil => simp [aset, alookup]
  | cons e rest ih =>
    by_cases h : e.1 = k <;> simp [aset, alookup, h, ih]

theorem alookup_aset_ne {α : Type} (m : List (String × α)) (k k' : String) (v : α)
    (h : k' ≠ k) : alookup (aset m k v) k' = alookup m k' := by
  induction m with
  | nil => simp [aset, alookup, Ne.symm h]
  | cons e rest ih =>
    by_cases he : e.1 = k
    · simp [aset, alookup, he, Ne.symm h]
    · by_cases he' : e.1 = k' <;> simp [aset, alookup, he, he', h, Ne.symm h, ih]

/-- Claim C1: the spec asks that scheduling assign index equal to position,
start step 0 at the game start time, give every step the end time
startTime plus duration times 1000 plus 500, and start every later step at
the previous step's end time plus 500.  The source never refreshes
lastEndTime after step 0, so step 2 of a three-step schedule starts at step
0's end plus 500 instead of step 1's end plus 500 (and the returned slice
additionally repeats the scheduled steps, so position 3 carries index 0
again): the chaining clause of the claim fails on the code. -/
theorem C1_scheduler_chaining_bug :
    c1Out.length = 6
      ∧ c1Out[0]?.map Step.startTime = some 1000
      ∧ c1Out[0]?.map Step.endTime = some 31500
      ∧ c1Out[1]?.map Step.startTime = some 32000
      ∧ c1Out[1]?.map Step.endTime = some 77500
      ∧ c1Out[2]?.map Step.startTime = some 32000
      ∧ c1Out[2]?.map Step.startTime ≠ some (77500 + 500)
      ∧ c1Out[3]?.map Step.stepIndex = some 0 := by
  decide

/-- Claim C3: archival must move every transient result into the game-level
stepResults map and then clear the steps.  The store.go implementation does
exactly that on this game, but the part 000 implementation appends each
result to a dead local variable, so it clears the step while archiving
nothing: the vote r1 of gamer g1 is lost. -/
theorem C3_archive_lost_results_bug :
    (ArchiveStepResults c3Game).stepResults = [("g1", [c3Res])]
      ∧ (alookup (ArchiveStepResults c3Game).steps "s1").map Step.result = some []
      ∧ (ArchiveStepResults_v0 c3Game).stepResults = []
      ∧ (alookup (ArchiveStepResults_v0 c3Game).steps "s1").map Step.result = some [] := by
  decide

/-- Claim C9: SetNextStep is supposed to advance currentStep to the step
named by the current step's nextStep pointer.  On a game sitting at step s1
whose successor is s2, the code looks the current step up and writes that
step's own bin back, leaving the game on s1: it never reads nextStep. -/
theorem C9_setNextStep_does_not_advance_bug :
    c9Step.nextStep = "s2"
      ∧ SetNextStep c9Game c9StepsDb = some c9Game
      ∧ (SetNextStep c9Game c9StepsDb).map Game.currentStep = some "s1" := by
  decide

/-- Claim C8: accepting a group invitation should insert the player into the
group's member set keyed by the player's bin, idempotently.  The source
passes the fetched group's own bin as the key, so on group G the accepts of
p2 and then p3 both succeed yet leave a single member entry keyed G, in
which p3 has overwritten p2; the set is never keyed by a player bin. -/
theorem C8_member_keyed_by_group_bin_bug :
    c8St1.1 = .ok ()
      ∧ (alookup c8St1.2.2 "G").map (fun g => g.members.map Prod.fst) = some ["G"]
      ∧ c8St2.1 = .ok ()
      ∧ (alookup c8St2.2.2 "G").map (fun g => g.members.map Prod.fst) = some ["G"]
      ∧ (alookup c8St2.2.2 "G").map (fun g => g.members.map (fun e => e.2.bin))
        = some ["p3"]
      ∧ c8P2.bin = "p2"
      ∧ c8P3.bin = "p3" := by
  decide

/-- Claim C2: on a game whose current step exists, recording a vote appends
exactly one result to the list stored for the voting gamer under the current
step: the persisted list is the old list with one new entry at the end, and
that entry carries the vote's step bin, the game's bin and the source gamer
id. -/
theorem C2_vote_appends_result (game : Game) (gamerId : String) (action : Vote)
    (freshBin stamp : String) (step : Step)
    (h : alookup game.steps game.currentStep = some step) :
    ∃ g', buildStepResult game gamerId action freshBin stamp
        = some (g', storedResults game gamerId
            ++ [{ bin := freshBin, stepBin := action.stepBin, gameBin := game.bin,
                  gamerId := gamerId, timeStamp := stamp, vote := action }])
      ∧ storedResults g' gamerId
        = storedResults game gamerId
            ++ [{ bin := freshBin, stepBin := action.stepBin, gameBin := game.bin,
                  gamerId := gamerId, timeStamp := stamp, vote := action }] := by
  have hs : storedResults game gamerId = (alookup step.result gamerId).getD [] := by
    unfold storedResults
    rw [h]
  let newList : List Result :=
    (alookup step.result gamerId).getD []
      ++ [{ bin := freshBin, stepBin := action.stepBin, gameBin := game.bin,
            gamerId := gamerId, timeStamp := stamp, vote := action }]
  let step' : Step := { step with result := aset step.result gamerId newList }
  refine ⟨{ game with steps := aset game.steps game.currentStep step' }, ?_, ?_⟩
  · unfold buildStepResult
    rw [h, hs]
  · unfold storedResults
    rw [h]
    simp only [alookup_aset_self, Option.getD_some]

/-- Witness for claim C2 at a concrete game already holding one result. -/
theorem C2_vote_appends_result_witness :
    alookup c2Game.steps c2Game.currentStep = some c2Step
      ∧ ∃ g', buildStepResult c2Game "g1" c2Vote "fresh" "999"
          = some (g', storedResults c2Game "g1"
              ++ [{ bin := "fresh", stepBin := c2Vote.stepBin, gameBin := c2Game.bin,
                    gamerId := "g1", timeStamp := "999", vote := c2Vote }])
        ∧ storedResults g' "g1"
          = storedResults c2Game "g1"
              ++ [{ bin := "fresh", stepBin := c2Vote.stepBin, gameBin := c2Game.bin,
                    gamerId := "g1", timeStamp := "999", vote := c2Vote }] :=
  ⟨by decide, C2_vote_appends_result c2Game "g1" c2Vote "fresh" "999" c2Step (by decide)⟩

theorem acceptInvLoop_already_accepted (invs : List Invitation) (invId : String)
    (inv : Invitation) (hfind : findInvitation invs invId = some inv)
    (hacc : inv.accepted = true) :
    acceptInvLoop invs invId = .error "invitation already accepted" := by
  induction invs with
  | nil => simp [findInvitation] at hfind
  | cons a rest ih =>
    by_cases hb : a.bin = invId
    · simp [findInvitation, hb] at hfind
      subst hfind
      simp [acceptInvLoop, hb, hacc]
    · simp [findInvitation, hb] at hfind
      simp [acceptInvLoop, hb, ih hfind]

theorem acceptInvLoop_already_declined (invs : List Invitation) (invId : String)
    (inv : Invitation) (hfind : findInvitation invs invId = some inv)
    (hacc : inv.accepted = false) (hdec : inv.declined = true) :
    acceptInvLoop invs invId = .error "invitation already declined" := by
  induction invs with
  | nil => simp [findInvitation] at hfind
  | cons a rest ih =>
    by_cases hb : a.bin = invId
    · simp [findInvitation, hb] at hfind
      subst hfind
      simp [acceptInvLoop, hb, hacc, hdec]
    · simp [findInvitation, hb] at hfind
      simp [acceptInvLoop, hb, ih hfind]

theorem acceptInvLoop_find_ok (invs : List Invitation) (invId : String)
    (inv : Invitation) (hfind : findInvitation invs invId = some inv)
    (hacc : inv.accepted = false) (hdec : inv.declined = false) :
    ∃ invs', acceptInvLoop invs invId = .ok invs'
      ∧ findInvitation invs' invId
        = some { inv with accepted := true, status := "accepted" } := by
  induction invs with
  | nil => simp [findInvitation] at hfind
  | cons a rest ih =>
    by_cases hb : a.bin = invId
    · simp [findInvitation, hb] at hfind
      subst hfind
      refine ⟨{ a with accepted := true, status := "accepted" } :: rest, ?_, ?_⟩
      · simp [acceptInvLoop, hb, hacc, hdec]
      · simp [findInvitation, hb]
    · simp [findInvitation, hb] at hfind
      obtain ⟨rest', hok, hfind'⟩ := ih hfind
      refine ⟨a :: rest', ?_, ?_⟩
      · simp [acceptInvLoop, hb, hok]
      · simp [findInvitation, hb, hfind']

theorem declineInvLoop_find (invs : List Invitation) (invId : String)
    (inv : Invitation) (hfind : findInvitation invs invId = some inv) :
    findInvitation (declineInvLoop invs invId) invId
      = some { inv with declined := true, accepted := false, status := "declined" } := by
  induction invs with
  | nil => simp [findInvitation] at hfind
  | cons a rest ih =>
    by_cases hb : a.bin = invId
    · simp [findInvitation, hb] at hfind
      subst hfind
      simp [declineInvLoop, findInvitation, hb]
    · simp [findInvitation, hb] at hfind
      simp [declineInvLoop, findInvitation, hb, ih hfind]

theorem DeclineGameGroupInvitation_invitations (p : Player) (invId gid : String)
    (groups : List (String × Group)) :
    ((DeclineGameGroupInvitation p invId gid groups).1).invitations
      = declineInvLoop p.invitations invId := by
  unfold DeclineGameGroupInvitation
  split <;> rfl

/-- Claim C5 counterexample: the claim says declining an already-accepted
invitation does not silently flip it to declined, yet on the concrete player
pA whose invitation i1 is accepted, DeclineGameGroupInvitation (which has no
failure channel at all) rewrites the invitation to declined. -/
theorem C5_decline_flips_accepted_counterexample :
    c5Inv.accepted = true
      ∧ (DeclineGameGroupInvitation c5Player "i1" "g1" c5Groups).1.invitations
        = [mkInvitation "i1" false true "declined"] := by
  decide

/-- Claim C5 as amended: accepting an already-terminal invitation fails
explicitly and changes nothing, but declining performs no terminal check:
it silently flips even an already-accepted invitation to declined, with no
failure signal. -/
theorem C5_terminal_transition_check (p : Player) (invId gid : String)
    (groups : List (String × Group)) (inv : Invitation)
    (hfind : findInvitation p.invitations invId = some inv) :
    ((inv.accepted = true ∨ inv.declined = true) →
      ∃ e, AcceptGroupInvitation p invId gid groups = (.error e, p, groups))
    ∧ (inv.accepted = true →
      ∃ inv', findInvitation
            (DeclineGameGroupInvitation p invId gid groups).1.invitations invId
          = some inv'
        ∧ inv'.accepted = false ∧ inv'.declined = true ∧ inv'.status = "declined") := by
  constructor
  · intro hterm
    by_cases hacc : inv.accepted = true
    · refine ⟨"invitation already accepted", ?_⟩
      unfold AcceptGroupInvitation
      rw [acceptInvLoop_already_accepted p.invitations invId inv hfind hacc]
    · have hacc' : inv.accepted = false := by
        revert hacc
        cases inv.accepted <;> simp
      have hdec : inv.declined = true := by
        rcases hterm with h1 | h1
        · exact absurd h1 hacc
        · exact h1
      refine ⟨"invitation already declined", ?_⟩
      unfold AcceptGroupInvitation
      rw [acceptInvLoop_already_declined p.invitations invId inv hfind hacc' hdec]
  · intro _
    refine ⟨{ inv with declined := true, accepted := false, status := "declined" },
      ?_, rfl, rfl, rfl⟩
    rw [DeclineGameGroupInvitation_invitations]
    exact declineInvLoop_find p.invitations invId inv hfind

/-- Witness for the amended claim C5 on the concrete player pA. -/
theorem C5_terminal_transition_check_witness :
    (∃ e, AcceptGroupInvitation c5Player "i1" "g1" c5Groups = (.error e, c5Player, c5Groups))
      ∧ (∃ inv', findInvitation
            (DeclineGameGroupInvitation c5Player "i1" "g1" c5Groups).1.invitations "i1"
          = some inv'
        ∧ inv'.accepted = false ∧ inv'.declined = true ∧ inv'.status = "declined") :=
  ⟨(C5_terminal_transition_check c5Player "i1" "g1" c5Groups c5Inv (by decide)).1
      (Or.inl (by decide)),
   (C5_terminal_transition_check c5Player "i1" "g1" c5Groups c5Inv (by decide)).2
      (by decide)⟩

/-- Claim C6: when the first invitation matching the given id is already
accepted, AcceptGroupInvitation returns the already-accepted failure, and
when it is already declined, the already-declined failure; in both cases
the player (so every invitation field) and the groups are exactly as
before, because the source returns before any mutation or persist. -/
theorem C6_accept_terminal_fails (p : Player) (invId gid : String)
    (groups : List (String × Group)) (inv : Invitation)
    (hfind : findInvitation p.invitations invId = some inv) :
    (inv.accepted = true →
      AcceptGroupInvitation p invId gid groups
        = (.error "invitation already accepted", p, groups))
    ∧ (inv.accepted = false → inv.declined = true →
      AcceptGroupInvitation p invId gid groups
        = (.error "invitation already declined", p, groups)) := by
  constructor
  · intro hacc
    unfold AcceptGroupInvitation
    rw [acceptInvLoop_already_accepted p.invitations invId inv hfind hacc]
  · intro hacc hdec
    unfold AcceptGroupInvitation
    rw [acceptInvLoop_already_declined p.invitations invId inv hfind hacc hdec]

/-- Witness for claim C6 on a player holding one accepted and one declined
invitation. -/
theorem C6_accept_terminal_fails_witness :
    AcceptGroupInvitation c6Player "iA" "g1" []
        = (.error "invitation already accepted", c6Player, [])
      ∧ AcceptGroupInvitation c6Player "iD" "g1" []
        = (.error "invitation already declined", c6Player, []) :=
  ⟨(C6_accept_terminal_fails c6Player "iA" "g1" [] c6InvA (by decide)).1 (by decide),
   (C6_accept_terminal_fails c6Player "iD" "g1" [] c6InvD (by decide)).2
      (by decide) (by decide)⟩

theorem acceptInvLoop_preserves (invs : List Invitation) (invId : String)
    (invs' : List Invitation) (h : ∀ inv ∈ invs, InvitationOK inv)
    (hok : acceptInvLoop invs invId = .ok invs') :
    ∀ inv ∈ invs', InvitationOK inv := by
  induction invs generalizing invs' with
  | nil =>
    unfold acceptInvLoop at hok
    injection hok with h1
    subst h1
    simp
  | cons a rest ih =>
    unfold acceptInvLoop at hok
    by_cases hb : a.bin = invId
    · rw [if_pos hb] at hok
      by_cases hacc : a.accepted = true
      · simp [hacc] at hok
      · by_cases hdec : a.declined = true
        · simp [hacc, hdec] at hok
        · simp [hacc, hdec] at hok
          subst hok
          intro inv hmem
          rcases List.mem_cons.mp hmem with rfl | hm
          · intro hcon
            simpa using hcon.2
          · exact h _ (List.mem_cons_of_mem _ hm)
    · rw [if_neg hb] at hok
      cases hrest : acceptInvLoop rest invId with
      | error e => rw [hrest] at hok; cases hok
      | ok rest' =>
        rw [hrest] at hok
        injection hok with h1
        subst h1
        intro inv hmem
        rcases List.mem_cons.mp hmem with rfl | hm
        · exact h _ (List.mem_cons_self _ _)
        · exact ih rest' (fun i hi => h i (List.mem_cons_of_mem _ hi)) hrest _ hm

theorem declineInvLoop_preserves (invs : List Invitation) (invId : String)
    (h : ∀ inv ∈ invs, InvitationOK inv) :
    ∀ inv ∈ declineInvLoop invs invId, InvitationOK inv := by
  induction invs with
  | nil => simp [declineInvLoop]
  | cons a rest ih =>
    intro inv hmem
    unfold declineInvLoop at hmem
    by_cases hb : a.bin = invId
    · rw [if_pos hb] at hmem
      rcases List.mem_cons.mp hmem with rfl | hm
      · intro hcon
        cases hcon.1
      · exact h _ (List.mem_cons_of_mem _ hm)
    · rw [if_neg hb] at hmem
      rcases List.mem_cons.mp hmem with rfl | hm
      · exact h _ (List.mem_cons_self _ _)
      · exact ih (fun i hi => h i (List.mem_cons_of_mem _ hi)) _ hm

theorem AcceptGroupInvitation_invitations (p : Player) (invId gid : String)
    (groups : List (String × Group)) :
    ((AcceptGroupInvitation p invId gid groups).2.1).invitations
      = match acceptInvLoop p.invitations invId with
        | .error _ => p.invitations
        | .ok invs => invs := by
  unfold AcceptGroupInvitation
  cases hloop : acceptInvLoop p.invitations invId with
  | error e => rfl
  | ok invs =>
    by_cases hg : gid ∈ p.groupIds
      <;> cases halook : alookup groups gid
      <;> simp [hg, halook]

theorem applyGroupInvOp_preserves (st : Player × List (String × Group))
    (op : GroupInvOp) (h : PlayerOK st.1) : PlayerOK (applyGroupInvOp st op).1 := by
  cases op with
  | accept invId gid =>
    intro inv hmem
    rw [show (applyGroupInvOp st (GroupInvOp.accept invId gid)).1
        = (AcceptGroupInvitation st.1 invId gid st.2).2.1 from rfl] at hmem
    rw [AcceptGroupInvitation_invitations] at hmem
    cases hloop : acceptInvLoop st.1.invitations invId with
    | error e =>
      rw [hloop] at hmem
      exact h inv hmem
    | ok invs =>
      rw [hloop] at hmem
      exact acceptInvLoop_preserves _ _ _ h hloop inv hmem
  | decline invId gid =>
    intro inv hmem
    rw [show (applyGroupInvOp st (GroupInvOp.decline invId gid)).1
        = (DeclineGameGroupInvitation st.1 invId gid st.2).1 from rfl] at hmem
    rw [DeclineGameGroupInvitation_invitations] at hmem
    exact declineInvLoop_preserves _ _ h inv hmem

theorem foldGroupInvOps_preserves (ops : List GroupInvOp)
    (st : Player × List (String × Group)) (h : PlayerOK st.1) :
    PlayerOK (ops.foldl applyGroupInvOp st).1 := by
  induction ops generalizing st with
  | nil => exact h
  | cons op rest ih => exact ih _ (applyGroupInvOp_preserves st op h)

/-- Claim C7: starting from a player whose invitations all satisfy mutual
exclusion, no sequence of accept and decline transitions ever produces an
invitation with accepted and declined both true; moreover a successful
accept of a pending invitation leaves it accepted with declined still
false, and a decline leaves it declined with accepted false. -/
theorem C7_mutual_exclusion_invariant (ops : List GroupInvOp) (p : Player)
    (groups : List (String × Group)) (invId : String) (inv : Invitation)
    (h : PlayerOK p) (hfind : findInvitation p.invitations invId = some inv) :
    PlayerOK (ops.foldl applyGroupInvOp (p, groups)).1
      ∧ (inv.accepted = false → inv.declined = false →
        ∃ invs', acceptInvLoop p.invitations invId = .ok invs'
          ∧ findInvitation invs' invId
            = some { inv with accepted := true, status := "accepted" })
      ∧ findInvitation (declineInvLoop p.invitations invId) invId
        = some { inv with declined := true, accepted := false, status := "declined" } := by
  refine ⟨foldGroupInvOps_preserves ops (p, groups) h, ?_, ?_⟩
  · intro hacc hdec
    exact acceptInvLoop_find_ok p.invitations invId inv hfind hacc hdec
  · exact declineInvLoop_find p.invitations invId inv hfind

/-- Witness for claim C7: a pending invitation run through an accept, two
declines and another accept. -/
theorem C7_mutual_exclusion_invariant_witness :
    PlayerOK (c7Ops.foldl applyGroupInvOp (c7Player, c7Groups)).1
      ∧ ((mkInvitation "i1" false false "received").accepted = false →
          (mkInvitation "i1" false false "received").declined = false →
        ∃ invs', acceptInvLoop c7Player.invitations "i1" = .ok invs'
          ∧ findInvitation invs' "i1"
            = some { mkInvitation "i1" false false "received" with
                      accepted := true, status := "accepted" })
      ∧ findInvitation (declineInvLoop c7Player.invitations "i1") "i1"
        = some { mkInvitation "i1" false false "received" with
                  declined := true, accepted := false, status := "declined" } :=
  C7_mutual_exclusion_invariant c7Ops c7Player c7Groups "i1"
    (mkInvitation "i1" false false "received") (by decide) (by decide)

theorem foldl_archive_cleared (l : List (String × Step))
    (acc : List (String × List Result)) :
    (l.map clearStep).foldl (fun a p => archiveStepInto a p.2) acc = acc := by
  induction l generalizing acc with
  | nil => rfl
  | cons e rest ih =>
    simp only [List.map_cons, List.foldl_cons]
    exact ih acc

theorem keyLen_archiveResultEntry (acc : List (String × List Result)) (res : Result)
    (k : String) : keyLen acc k ≤ keyLen (archiveResultEntry acc res) k := by
  by_cases hk : k = res.gamerId
  · subst hk
    unfold keyLen archiveResultEntry
    rw [alookup_aset_self]
    simp
  · unfold keyLen archiveResultEntry
    rw [alookup_aset_ne _ _ _ _ hk]

theorem keyLen_foldl_results (rs : List Result) (acc : List (String × List Result))
    (k : String) : keyLen acc k ≤ keyLen (rs.foldl archiveResultEntry acc) k := by
  induction rs generalizing acc with
  | nil => exact le_rfl
  | cons r rest ih => exact le_trans (keyLen_archiveResultEntry acc r k) (ih _)

theorem keyLen_archiveStepInto (step : Step) (acc : List (String × List Result))
    (k : String) : keyLen acc k ≤ keyLen (archiveStepInto acc step) k := by
  unfold archiveStepInto
  generalize step.result = prs
  induction prs generalizing acc with
  | nil => exact le_rfl
  | cons pr rest ih => exact le_trans (keyLen_foldl_results pr.2 acc k) (ih _)

theorem keyLen_foldl_steps (l : List (String × Step))
    (acc : List (String × List Result)) (k : String) :
    keyLen acc k ≤ keyLen (l.foldl (fun a p => archiveStepInto a p.2) acc) k := by
  induction l generalizing acc with
  | nil => exact le_rfl
  | cons e rest ih => exact le_trans (keyLen_archiveStepInto e.2 acc k) (ih _)

theorem ArchiveStepResults_monotone (g : Game) (k : String) :
    keyLen g.stepResults k ≤ keyLen (ArchiveStepResults g).stepResults k := by
  unfold ArchiveStepResults
  exact keyLen_foldl_steps g.steps g.stepResults k

theorem ArchiveStepResults_idem (g : Game) :
    (ArchiveStepResults (ArchiveStepResults g)).stepResults
      = (ArchiveStepResults g).stepResults := by
  show ((ArchiveStepResults g).steps.foldl (fun a p => archiveStepInto a p.2)
      (ArchiveStepResults g).stepResults) = (ArchiveStepResults g).stepResults
  rw [show (ArchiveStepResults g).steps = g.steps.map clearStep from rfl]
  exact foldl_archive_cleared g.steps _

theorem ArchiveStepResults_iterate_monotone (n : Nat) (g : Game) (k : String) :
    keyLen g.stepResults k ≤ keyLen (ArchiveStepResults^[n] g).stepResults k := by
  induction n generalizing g with
  | zero => exact le_rfl
  | succ m ih =>
    rw [Function.iterate_succ_apply]
    exact le_trans (ArchiveStepResults_monotone g k) (ih _)

/-- Claim C4: archival is idempotent and monotone.  A second archival right
after a first one leaves the stepResults map unchanged (the first cleared
every step, so the second collects nothing), and for every gamer the
archived history length never decreases, across one call and across any
number of consecutive calls; the same idempotence holds for the part 000
variant, which never changes stepResults at all. -/
theorem C4_archive_idempotent_and_monotone (g : Game) (gamer : String) (n : Nat) :
    (ArchiveStepResults (ArchiveStepResults g)).stepResults
        = (ArchiveStepResults g).stepResults
      ∧ keyLen g.stepResults gamer ≤ keyLen (ArchiveStepResults g).stepResults gamer
      ∧ keyLen g.stepResults gamer
        ≤ keyLen (ArchiveStepResults^[n] g).stepResults gamer
      ∧ (ArchiveStepResults_v0 (ArchiveStepResults_v0 g)).stepResults
        = (ArchiveStepResults_v0 g).stepResults :=
  ⟨ArchiveStepResults_idem g, ArchiveStepResults_monotone g gamer,
   ArchiveStepResults_iterate_monotone n g gamer, rfl⟩

/-- Claim C10: accepting or declining a game invitation persists the
player's invitations field as a freshly built single-element list holding
only the processed invitation, with status received and a hard-coded
message; every other invitation the player previously held is dropped from
the persisted value. -/
theorem C10_game_invitation_list_replaced (game : Game) (playerId : String)
    (invitation : Invitation) (p : Player) (freshGamerBin : String) :
    ((AcceptGameInvitation game playerId invitation p freshGamerBin).2).invitations
        = [acceptedGameInvitation invitation]
      ∧ (acceptedGameInvitation invitation).status = "received"
      ∧ (acceptedGameInvitation invitation).message = "I\x27m down!"
      ∧ (acceptedGameInvitation invitation).accepted = true
      ∧ (acceptedGameInvitation invitation).declined = false
      ∧ ((DeclineGameInvitation game playerId invitation p).2).invitations
        = [declinedGameInvitation invitation]
      ∧ (declinedGameInvitation invitation).status = "received"
      ∧ (declinedGameInvitation invitation).message = "I\x27m not down!"
      ∧ (declinedGameInvitation invitation).accepted = false
      ∧ (declinedGameInvitation invitation).declined = true
      ∧ (∀ old ∈ p.invitations, old.bin ≠ invitation.bin →
          old ∉ ((AcceptGameInvitation game playerId invitation p freshGamerBin).2).invitations
          ∧ old ∉ ((DeclineGameInvitation game playerId invitation p).2).invitations) := by
  refine ⟨rfl, rfl, rfl, rfl, rfl, rfl, rfl, rfl, rfl, rfl, ?_⟩
  intro old hold hbin
  constructor
  · intro hmem
    simp only [AcceptGameInvitation, List.mem_singleton] at hmem
    exact hbin (by rw [hmem]; rfl)
  · intro hmem
    simp only [DeclineGameInvitation, List.mem_singleton] at hmem
    exact hbin (by rw [hmem]; rfl)

/-- Witness for claim C10 on a player holding one unrelated invitation. -/
theorem C10_game_invitation_list_replaced_witness :
    ((AcceptGameInvitation c10Game "p9" c10Inv c10Player "fb").2).invitations
        = [acceptedGameInvitation c10Inv]
      ∧ (acceptedGameInvitation c10Inv).status = "received"
      ∧ (acceptedGameInvitation c10Inv).message = "I\x27m down!"
      ∧ (acceptedGameInvitation c10Inv).accepted = true
      ∧ (acceptedGameInvitation c10Inv).declined = false
      ∧ ((DeclineGameInvitation c10Game "p9" c10Inv c10Player).2).invitations
        = [declinedGameInvitation c10Inv]
      ∧ (declinedGameInvitation c10Inv).status = "received"
      ∧ (declinedGameInvitation c10Inv).message = "I\x27m not down!"
      ∧ (declinedGameInvitation c10Inv).accepted = false
      ∧ (declinedGameInvitation c10Inv).declined = true
      ∧ (∀ old ∈ c10Player.invitations, old.bin ≠ c10Inv.bin →
          old ∉ ((AcceptGameInvitation c10Game "p9" c10Inv c10Player "fb").2).invitations
          ∧ old ∉ ((DeclineGameInvitation c10Game "p9" c10Inv c10Player).2).invitations) :=
  C10_game_invitation_list_replaced c10Game "p9" c10Inv c10Player "fb"

end PMStore
